import Mathlib

/-!
Shallow embedding of the hex editor in `src/main.rs` (pokeHEXEDITOR) and
verification of its grid-coordinate model: the cell-to-offset mapping
(`get_cursor_offset`), cursor clamping (`move_cursor`), viewport scrolling
(`scroll`), byte mutation (`edit_byte`) and persistence (`save_file`,
`open_file`).  Bytes are modelled as `Nat`, `usize` arithmetic as `Nat`
(Rust `saturating_sub` is Nat subtraction), `isize` as `Int`, and the
fallible Storage collaborator (`fs::read` / `fs::write`) as an explicit
outcome argument.
-/

namespace PokeHex

/-- Character columns of the display grid (`const WIDTH` in src/main.rs). -/
def WIDTH : Nat := 80

/-- Character rows of the display grid (`const HEIGHT` in src/main.rs). -/
def HEIGHT : Nat := 40

/-- Bytes shown per row (`const BYTES_PER_ROW` in src/main.rs). -/
def BYTES_PER_ROW : Nat := 16

/-- Rows of data actually rendered: `let visible_rows = HEIGHT - 10;`
(render, src/main.rs line 127, after the header lines). -/
def visibleRows : Nat := HEIGHT - 10

/-- Abstract error from the Storage collaborator (`std::io::Error`). -/
inductive IOError
  | ioError
deriving DecidableEq

/-- The editor state, `struct HexEditor` in src/main.rs: optional source
path, byte buffer, modified flag, viewport offset and cursor cell. -/
structure HexEditor where
  rom_path : Option String
  data : List Nat
  modified : Bool
  view_offset : Nat
  cursor_pos : Nat × Nat
deriving DecidableEq

/-- Initial state, `HexEditor::new` (src/main.rs lines 19-27). -/
def HexEditor.new : HexEditor :=
  { rom_path := none, data := [], modified := false,
    view_offset := 0, cursor_pos := (0, 0) }

/-- Open a file, `HexEditor::open_file` (src/main.rs lines 30-37).  The
Storage read `fs::read(path)` is passed in as its outcome `readResult`;
`?` propagates an error with the state unchanged. -/
def HexEditor.open_file (s : HexEditor) (path : String)
    (readResult : Except IOError (List Nat)) :
    HexEditor × Except IOError Unit :=
  match readResult with
  | .error e => (s, .error e)
  | .ok d =>
      ({ s with data := d, rom_path := some path,
                view_offset := 0, modified := false }, .ok ())

/-- Save the buffer, `HexEditor::save_file` (src/main.rs lines 40-47).
The Storage write `fs::write(path, &self.data)` is passed in as the
function `write`; `?` propagates an error before `modified` is cleared.
When `rom_path` is `None` the body is skipped and `Ok(())` is returned. -/
def HexEditor.save_file (s : HexEditor)
    (write : String → List Nat → Except IOError Unit) :
    HexEditor × Except IOError Unit :=
  match s.rom_path with
  | some path =>
      match write path s.data with
      | .error e => (s, .error e)
      | .ok _ => ({ s with modified := false }, .ok ())
  | none => (s, .ok ())

/-- Modify one byte, `HexEditor::edit_byte` (src/main.rs lines 50-55):
in-bounds offsets are written and `modified` set; otherwise no-op. -/
def HexEditor.edit_byte (s : HexEditor) (offset value : Nat) : HexEditor :=
  if offset < s.data.length then
    { s with data := s.data.set offset value, modified := true }
  else
    s

/-- Offset under the cursor, `HexEditor::get_cursor_offset`
(src/main.rs lines 58-72).  Note the region test is literally
`x >= 10 && x < 10 + BYTES_PER_ROW * 3 && x % 3 != 2` — the modulus is
taken of `x` itself, not of `x - 10`. -/
def HexEditor.get_cursor_offset (s : HexEditor) : Option Nat :=
  let x := s.cursor_pos.1
  let y := s.cursor_pos.2
  if 10 ≤ x ∧ x < 10 + BYTES_PER_ROW * 3 ∧ x % 3 ≠ 2 then
    let byte_idx := (x - 10) / 3
    let offset := s.view_offset + y * BYTES_PER_ROW + byte_idx
    if offset < s.data.length then some offset else none
  else
    none

/-- Move the cursor, `HexEditor::move_cursor` (src/main.rs lines 75-80):
each axis is offset by the signed delta, then clamped with
`.max(0).min(bound)` exactly as in the source (`as usize` is `Int.toNat`
after the clamp has made the value non-negative). -/
def HexEditor.move_cursor (s : HexEditor) (dx dy : Int) : HexEditor :=
  let new_x : Nat :=
    (min (max ((s.cursor_pos.1 : Int) + dx) 0)
      ((10 + BYTES_PER_ROW * 3 - 1 : Nat) : Int)).toNat
  let new_y : Nat :=
    (min (max ((s.cursor_pos.2 : Int) + dy) 0)
      ((HEIGHT - 1 : Nat) : Int)).toNat
  { s with cursor_pos := (new_x, new_y) }

/-- Scroll the view, `HexEditor::scroll` (src/main.rs lines 83-90).
Backward (`delta < 0`) is `saturating_sub BYTES_PER_ROW` (Nat
subtraction); forward (`delta > 0`) is
`min (view_offset + BYTES_PER_ROW) (data.len().saturating_sub (HEIGHT * BYTES_PER_ROW))`.
Note the source uses `HEIGHT`, not the rendered `visible_rows`. -/
def HexEditor.scroll (s : HexEditor) (delta : Int) : HexEditor :=
  if delta < 0 then
    { s with view_offset := s.view_offset - BYTES_PER_ROW }
  else if delta > 0 then
    let max_offset := s.data.length - HEIGHT * BYTES_PER_ROW
    { s with view_offset := min (s.view_offset + BYTES_PER_ROW) max_offset }
  else
    s

/-- The clamp bound used by forward scrolling (src/main.rs line 87):
`self.data.len().saturating_sub(HEIGHT * BYTES_PER_ROW)`. -/
def maxViewOffsetCode (len : Nat) : Nat := len - HEIGHT * BYTES_PER_ROW

/-- Display row on which byte `o` is rendered when the viewport starts at
`view`: the render loop (src/main.rs lines 133-172) starts `row_offset`
at `view_offset`, advances it by `BYTES_PER_ROW` and counts
`display_row` up from 0, so byte `o` lands on row `(o - view) / 16`. -/
def displayRow (o view : Nat) : Nat := (o - view) / BYTES_PER_ROW

/-- The `row_offset` of the display row containing byte `o` (render loop,
src/main.rs lines 133-172). -/
def rowStartOffset (o view : Nat) : Nat :=
  view + displayRow o view * BYTES_PER_ROW

/-- The cursor cell that rendering associates with byte `o`: the highlight
test on src/main.rs line 144 is
`self.cursor_pos == ((i - row_offset) * 3 + 10, display_row)`. -/
def cellForByte (o view : Nat) : Nat × Nat :=
  ((o - rowStartOffset o view) * 3 + 10, displayRow o view)

/-- The cell-to-offset mapping exactly as the spec words it (spec section
4.1 and claim C1): region test `cellX >= 10`, `cellX < 10 + 16*3`,
`(cellX - 10) mod 3 != 2`, offset `viewOffset + cellY*16 + (cellX-10)/3`
when it is below the buffer length.  Kept separate from
`HexEditor.get_cursor_offset` so the two can be compared. -/
def offsetForCell_spec (cellX cellY viewOffset bufferLength : Nat) :
    Option Nat :=
  if 10 ≤ cellX ∧ cellX < 10 + 16 * 3 ∧ (cellX - 10) % 3 ≠ 2 then
    let o := viewOffset + cellY * 16 + (cellX - 10) / 3
    if o < bufferLength then some o else none
  else
    none

/-- The cell-to-offset mapping with the region test the code actually
performs: `cellX mod 3 ≠ 2` (equivalently `(cellX - 10) mod 3 ≠ 1`), so
the cell rejected in each 3-cell group is the second hex digit, not the
separator. -/
def offsetForCell_amended (cellX cellY viewOffset bufferLength : Nat) :
    Option Nat :=
  if 10 ≤ cellX ∧ cellX < 10 + 16 * 3 ∧ cellX % 3 ≠ 2 then
    let o := viewOffset + cellY * 16 + (cellX - 10) / 3
    if o < bufferLength then some o else none
  else
    none

/-- Horizontal navigation as dispatched by `main` (src/main.rs lines
245-250): Left is `move_cursor (-3) 0`, Right is `move_cursor 3 0`; a
whole input sequence is a fold of such calls over the state. -/
def applyHMoves (s : HexEditor) (ds : List Int) : HexEditor :=
  ds.foldl (fun t d => t.move_cursor d 0) s

/-- Repeated forward scrolling: PageDown in `main` (src/main.rs line 257)
calls `scroll 10`. -/
def scrollFwdIter : Nat → HexEditor → HexEditor
  | 0, s => s
  | n + 1, s => scrollFwdIter n (s.scroll 10)

/-- Repeated backward scrolling: PageUp in `main` (src/main.rs line 254)
calls `scroll (-10)`. -/
def scrollBackIter : Nat → HexEditor → HexEditor
  | 0, s => s
  | n + 1, s => scrollBackIter n (s.scroll (-10))

/-- A viewport-affecting top-level operation as dispatched by `main`: a
completed `open_file` call carrying the Storage read's outcome, or a
`scroll` call. -/
inductive EditorOp where
  | openf (path : String) (r : Except IOError (List Nat))
  | scrollBy (delta : Int)

/-- Apply one operation to the editor state. -/
def applyOp (s : HexEditor) : EditorOp → HexEditor
  | .openf p r => (s.open_file p r).1
  | .scrollBy d => s.scroll d

/-- Apply a sequence of operations starting from a given state. -/
def applyOps (s : HexEditor) (ops : List EditorOp) : HexEditor :=
  ops.foldl applyOp s

/-- Viewport invariant actually maintained by the code: the view offset
never exceeds the forward-scroll clamp bound, and it is a multiple of
`BYTES_PER_ROW` except possibly after clamping, when it is congruent to
that bound modulo `BYTES_PER_ROW`. -/
def viewInv (s : HexEditor) : Prop :=
  s.view_offset ≤ maxViewOffsetCode s.data.length ∧
  (s.view_offset % BYTES_PER_ROW = 0 ∨
    s.view_offset % BYTES_PER_ROW =
      maxViewOffsetCode s.data.length % BYTES_PER_ROW)

/-- One step of ±3 with clamping keeps `cellX` a multiple of 3 within
`[0, 57]` (both clamp bounds, 0 and `10 + 16*3 - 1 = 57`, are themselves
multiples of 3). -/
theorem hmove_inv (s : HexEditor) (d : Int) (hd : d = 3 ∨ d = -3)
    (hx : s.cursor_pos.1 % 3 = 0 ∧ s.cursor_pos.1 ≤ 57) :
    (s.move_cursor d 0).cursor_pos.1 % 3 = 0 ∧
    (s.move_cursor d 0).cursor_pos.1 ≤ 57 := by
  simp only [HexEditor.move_cursor, BYTES_PER_ROW, HEIGHT]
  rcases hd with rfl | rfl <;> omega

/-- The multiple-of-3 invariant is preserved by any sequence of ±3
horizontal moves. -/
theorem applyHMoves_inv (ds : List Int) :
    ∀ s : HexEditor, (∀ d ∈ ds, d = 3 ∨ d = -3) →
      s.cursor_pos.1 % 3 = 0 ∧ s.cursor_pos.1 ≤ 57 →
      (applyHMoves s ds).cursor_pos.1 % 3 = 0 ∧
      (applyHMoves s ds).cursor_pos.1 ≤ 57 := by
  induction ds with
  | nil => intro s _ hx; exact hx
  | cons d ds ih =>
      intro s hall hx
      have h1 := hmove_inv s d (hall d (by simp)) hx
      exact ih (s.move_cursor d 0) (fun e he => hall e (by simp [he])) h1

/-- Counterexample to claim C3: after the single Right-arrow move from the
initial cell `(0, 0)`, the cursor sits at `cellX = 3`, which is not
`10 + 3*k` for any byte index `k` (all such columns are `≡ 1 mod 3`
while 3 is not). -/
theorem C3_counterexample :
    (applyHMoves HexEditor.new [3]).cursor_pos.1 = 3 ∧
    ∀ k : Nat, (applyHMoves HexEditor.new [3]).cursor_pos.1 ≠ 10 + 3 * k := by
  refine ⟨by decide, ?_⟩
  intro k
  have h : (applyHMoves HexEditor.new [3]).cursor_pos.1 = 3 := by decide
  omega

/-- Claim C3 as amended: starting from `(0, 0)`, after any sequence of
±3 horizontal moves with clamping, `cellX` is always a multiple of 3 in
`[0, 57]` — and therefore never a byte's first-digit column `10 + 3*k`. -/
theorem C3_horizontal_cells (ds : List Int)
    (h : ds.all (fun d => d == 3 || d == -3) = true) :
    (applyHMoves HexEditor.new ds).cursor_pos.1 % 3 = 0 ∧
    (applyHMoves HexEditor.new ds).cursor_pos.1 ≤ 57 ∧
    ∀ k : Nat, (applyHMoves HexEditor.new ds).cursor_pos.1 ≠ 10 + 3 * k := by
  have h' : ∀ d ∈ ds, d = 3 ∨ d = -3 := by
    intro d hd
    have hb := List.all_eq_true.mp h d hd
    simpa using hb
  have hmain := applyHMoves_inv ds HexEditor.new h' (by decide)
  refine ⟨hmain.1, hmain.2, ?_⟩
  intro k
  have h3 := hmain.1
  omega

/-- Witness for C3 (amended): the move sequence Right, Right, Left, Right
ends with the cursor at a multiple of 3 within bounds. -/
theorem C3_witness :
    (([3, 3, -3, 3] : List Int).all (fun d => d == 3 || d == -3) = true) ∧
    (applyHMoves HexEditor.new [3, 3, -3, 3]).cursor_pos.1 % 3 = 0 ∧
    (applyHMoves HexEditor.new [3, 3, -3, 3]).cursor_pos.1 ≤ 57 := by
  refine ⟨by decide, ?_, ?_⟩
  · exact (C3_horizontal_cells [3, 3, -3, 3] (by decide)).1
  · exact (C3_horizontal_cells [3, 3, -3, 3] (by decide)).2.1

/-- Counterexample to claim C4: moving down by 100 from the initial state
clamps `cellY` to `HEIGHT - 1 = 39`, which exceeds the claimed bound
`visibleRows - 1 = 29`. -/
theorem C4_counterexample :
    (HexEditor.new.move_cursor 0 100).cursor_pos.2 = 39 ∧
    ¬(HexEditor.new.move_cursor 0 100).cursor_pos.2 ≤ visibleRows - 1 := by
  decide

/-- Claim C4 as amended: for every start and every signed delta pair,
`move_cursor` clamps `cellX` into `[0, 10 + 16*3 - 1]` and `cellY` into
`[0, HEIGHT - 1]` (the full 40-row grid, not `visibleRows - 1`), each
axis independently, without wrap-around: overshooting a boundary lands
exactly on it. -/
theorem C4_move_cursor_clamps (s : HexEditor) (dx dy : Int) :
    (s.move_cursor dx dy).cursor_pos.1 ≤ 10 + BYTES_PER_ROW * 3 - 1 ∧
    (s.move_cursor dx dy).cursor_pos.2 ≤ HEIGHT - 1 ∧
    ((s.cursor_pos.1 : Int) + dx ≤ 0 →
      (s.move_cursor dx dy).cursor_pos.1 = 0) ∧
    ((s.cursor_pos.2 : Int) + dy ≤ 0 →
      (s.move_cursor dx dy).cursor_pos.2 = 0) ∧
    ((10 + BYTES_PER_ROW * 3 - 1 : Nat) ≤ (s.cursor_pos.1 : Int) + dx →
      (s.move_cursor dx dy).cursor_pos.1 = 10 + BYTES_PER_ROW * 3 - 1) ∧
    ((HEIGHT - 1 : Nat) ≤ (s.cursor_pos.2 : Int) + dy →
      (s.move_cursor dx dy).cursor_pos.2 = HEIGHT - 1) ∧
    (s.move_cursor dx dy).cursor_pos.1 = (s.move_cursor dx 0).cursor_pos.1 ∧
    (s.move_cursor dx dy).cursor_pos.2 = (s.move_cursor 0 dy).cursor_pos.2 := by
  simp only [HexEditor.move_cursor, BYTES_PER_ROW, HEIGHT]
  refine ⟨by omega, by omega, by omega, by omega, by omega, by omega,
    by trivial, by trivial⟩

/-- Witness for C4 (amended): overshooting left and down from the initial
state lands on column 0 and the bottom row 39. -/
theorem C4_witness :
    (HexEditor.new.move_cursor (-5) 100).cursor_pos.1 ≤
        10 + BYTES_PER_ROW * 3 - 1 ∧
    (HexEditor.new.move_cursor (-5) 100).cursor_pos.2 ≤ HEIGHT - 1 ∧
    (HexEditor.new.move_cursor (-5) 100).cursor_pos.1 = 0 ∧
    (HexEditor.new.move_cursor (-5) 100).cursor_pos.2 = HEIGHT - 1 := by
  have h := C4_move_cursor_clamps HexEditor.new (-5) 100
  exact ⟨h.1, h.2.1, h.2.2.1 (by decide), h.2.2.2.2.2.1 (by decide)⟩

/-- Counterexample to claim C1: at cell `(11, 0)` (the second hex digit of
the first byte) on a 1-byte buffer at view offset 0, the spec's region
test `(cellX - 10) mod 3 ≠ 2` accepts the cell and resolves it to offset
0, but the code's test `cellX mod 3 ≠ 2` rejects it, so
`get_cursor_offset` returns nothing. -/
theorem C1_counterexample :
    offsetForCell_spec 11 0 0
        (HexEditor.mk none [0] false 0 (11, 0)).data.length = some 0 ∧
    (HexEditor.mk none [0] false 0 (11, 0)).get_cursor_offset = none := by
  decide

/-- Claim C1 as amended: `get_cursor_offset` returns `some offset` exactly
when `cellX ≥ 10`, `cellX < 10 + 16*3`, `cellX mod 3 ≠ 2` (the modulus is
of `cellX` itself, so the rejected cell in each group of three is the
second hex digit, not the separator) and
`offset = viewOffset + cellY*16 + (cellX-10)/3 < bufferLength`; and the
claim's three concrete scenarios on the 20-byte buffer all hold. -/
theorem C1_get_cursor_offset_characterization :
    (∀ (s : HexEditor) (o : Nat),
        s.get_cursor_offset = some o ↔
          10 ≤ s.cursor_pos.1 ∧ s.cursor_pos.1 < 10 + 16 * 3 ∧
          s.cursor_pos.1 % 3 ≠ 2 ∧
          o = s.view_offset + s.cursor_pos.2 * 16 +
              (s.cursor_pos.1 - 10) / 3 ∧
          o < s.data.length) ∧
    (HexEditor.mk none (List.replicate 20 0) false 0
        (10, 0)).get_cursor_offset = some 0 ∧
    (HexEditor.mk none (List.replicate 20 0) false 0
        (10, 1)).get_cursor_offset = some 16 ∧
    (HexEditor.mk none (List.replicate 20 0) false 0
        (22, 1)).get_cursor_offset = none := by
  refine ⟨?_, by decide, by decide, by decide⟩
  intro s o
  simp only [HexEditor.get_cursor_offset, BYTES_PER_ROW]
  split_ifs with h1 h2
  · simp only [Option.some.injEq]
    constructor
    · rintro rfl
      exact ⟨h1.1, h1.2.1, h1.2.2, rfl, h2⟩
    · rintro ⟨-, -, -, rfl, -⟩
      rfl
  · simp only [false_iff]
    rintro ⟨-, -, -, rfl, hlt⟩
    exact absurd hlt h2
  · simp only [false_iff]
    rintro ⟨ha, hb, hc, -, -⟩
    exact absurd ⟨ha, hb, hc⟩ h1

/-- Witness for C1 (amended): the separator cell `(12, 0)` does resolve,
to offset 0, on a 1-byte buffer, via the amended characterization. -/
theorem C1_witness :
    (HexEditor.mk none [0] false 0 (12, 0)).get_cursor_offset = some 0 :=
  ((C1_get_cursor_offset_characterization).1
    (HexEditor.mk none [0] false 0 (12, 0)) 0).mpr (by decide)

/-- Claim C2: for every cursor cell inside the hex-byte region as the spec
delimits it (`10 ≤ cellX < 58`, `(cellX - 10) mod 3 ≠ 2`), if
`get_cursor_offset` resolves the cell to offset `o` then the inverse
mapping used by rendering gives the same cell back. -/
theorem C2_round_trip (s : HexEditor) (o : Nat)
    (hx1 : 10 ≤ s.cursor_pos.1)
    (hx2 : s.cursor_pos.1 < 10 + BYTES_PER_ROW * 3)
    (hsep : (s.cursor_pos.1 - 10) % 3 ≠ 2)
    (hres : s.get_cursor_offset = some o) :
    cellForByte o s.view_offset = s.cursor_pos := by
  simp only [HexEditor.get_cursor_offset, BYTES_PER_ROW] at hres
  simp only [BYTES_PER_ROW] at hx2
  split_ifs at hres with h1 h2
  case pos =>
    have ho : s.view_offset + s.cursor_pos.2 * 16 + (s.cursor_pos.1 - 10) / 3
        = o := by
      exact_mod_cast Option.some.inj hres
    obtain ⟨hr1, hr2, hr3⟩ := h1
    have hpair : cellForByte o s.view_offset =
        ((cellForByte o s.view_offset).1, (cellForByte o s.view_offset).2) :=
      rfl
    rw [hpair, show s.cursor_pos = (s.cursor_pos.1, s.cursor_pos.2) from rfl,
      Prod.mk.injEq]
    simp only [cellForByte, displayRow, rowStartOffset, BYTES_PER_ROW]
    constructor
    · omega
    · omega

/-- Witness for C2: the spec scenario cell `(10, 1)` on the 20-byte buffer
resolves to offset 16 and maps back to `(10, 1)`. -/
theorem C2_witness :
    10 ≤ (HexEditor.mk none (List.replicate 20 0) false 0
        (10, 1)).cursor_pos.1 ∧
    (HexEditor.mk none (List.replicate 20 0) false 0
        (10, 1)).cursor_pos.1 < 10 + BYTES_PER_ROW * 3 ∧
    ((HexEditor.mk none (List.replicate 20 0) false 0
        (10, 1)).cursor_pos.1 - 10) % 3 ≠ 2 ∧
    (HexEditor.mk none (List.replicate 20 0) false 0
        (10, 1)).get_cursor_offset = some 16 ∧
    cellForByte 16 (HexEditor.mk none (List.replicate 20 0) false 0
        (10, 1)).view_offset =
      (HexEditor.mk none (List.replicate 20 0) false 0 (10, 1)).cursor_pos := by
  refine ⟨by decide, by decide, by decide, by decide, ?_⟩
  exact C2_round_trip (HexEditor.mk none (List.replicate 20 0) false 0 (10, 1))
    16 (by decide) (by decide) (by decide) (by decide)

/-- Claim C8: for every buffer, every in-range offset and every byte
value, `edit_byte` sets `bytes[offset] = value` and `modified = true`,
while every other byte, the buffer length and the remaining fields are
unchanged. -/
theorem C8_edit_byte_in_range (s : HexEditor) (offset value : Nat)
    (h : offset < s.data.length) :
    (s.edit_byte offset value).data.length = s.data.length ∧
    (s.edit_byte offset value).data[offset]? = some value ∧
    (∀ j, j ≠ offset → (s.edit_byte offset value).data[j]? = s.data[j]?) ∧
    (s.edit_byte offset value).modified = true ∧
    (s.edit_byte offset value).rom_path = s.rom_path ∧
    (s.edit_byte offset value).view_offset = s.view_offset ∧
    (s.edit_byte offset value).cursor_pos = s.cursor_pos := by
  unfold HexEditor.edit_byte
  rw [if_pos h]
  refine ⟨List.length_set .., List.getElem?_set_self h, ?_, rfl, rfl, rfl, rfl⟩
  intro j hj
  exact List.getElem?_set_ne (Ne.symm hj)

/-- Witness for C8: the spec scenario, editing offset 5 of a 20-byte zero
buffer to 0xFF. -/
theorem C8_witness :
    5 < (HexEditor.mk none (List.replicate 20 0) false 0 (0, 0)).data.length ∧
    ((HexEditor.mk none (List.replicate 20 0) false 0 (0, 0)).edit_byte
        5 255).data[5]? = some 255 ∧
    ((HexEditor.mk none (List.replicate 20 0) false 0 (0, 0)).edit_byte
        5 255).modified = true := by
  refine ⟨by decide, ?_, ?_⟩
  · exact (C8_edit_byte_in_range
      (HexEditor.mk none (List.replicate 20 0) false 0 (0, 0)) 5 255
      (by decide)).2.1
  · exact (C8_edit_byte_in_range
      (HexEditor.mk none (List.replicate 20 0) false 0 (0, 0)) 5 255
      (by decide)).2.2.2.1

/-- Claim C9: for every buffer state, every offset at or past the end of
the buffer and every value, `edit_byte` is a silent no-op: the whole
state, the buffer included, is unchanged and `modified` is not set. -/
theorem C9_edit_byte_out_of_range (s : HexEditor) (offset value : Nat)
    (h : s.data.length ≤ offset) :
    s.edit_byte offset value = s := by
  unfold HexEditor.edit_byte
  rw [if_neg (by omega)]

/-- Witness for C9: editing offset 5 of a 3-byte buffer changes nothing. -/
theorem C9_witness :
    (HexEditor.mk none [7, 8, 9] false 0 (0, 0)).data.length ≤ 5 ∧
    (HexEditor.mk none [7, 8, 9] false 0 (0, 0)).edit_byte 5 255 =
      HexEditor.mk none [7, 8, 9] false 0 (0, 0) :=
  ⟨by decide,
   C9_edit_byte_out_of_range (HexEditor.mk none [7, 8, 9] false 0 (0, 0))
     5 255 (by decide)⟩

/-- Claim C10: when `rom_path` is `None`, `save_file` returns `Ok` without
consulting the Storage collaborator (the result is the same for every
`write` function) and leaves the entire state unchanged; in particular
`modified` is not cleared. -/
theorem C10_save_without_path (s : HexEditor)
    (w : String → List Nat → Except IOError Unit)
    (h : s.rom_path = none) :
    s.save_file w = (s, Except.ok ()) := by
  unfold HexEditor.save_file
  rw [h]

/-- Witness for C10: a modified, pathless editor "saves" successfully even
when the Storage write would fail, and keeps `modified = true`. -/
theorem C10_witness :
    (HexEditor.mk none [1, 2, 3] true 0 (0, 0)).rom_path = none ∧
    (HexEditor.mk none [1, 2, 3] true 0 (0, 0)).save_file
        (fun _ _ => Except.error IOError.ioError) =
      (HexEditor.mk none [1, 2, 3] true 0 (0, 0), Except.ok ()) :=
  ⟨rfl,
   C10_save_without_path (HexEditor.mk none [1, 2, 3] true 0 (0, 0))
     (fun _ _ => Except.error IOError.ioError) rfl⟩

/-- Claim C7: with a source path set, a failing Storage write leaves all
in-memory state unchanged (buffer untouched, `modified` not cleared) and
propagates the error; a successful write clears `modified` and changes
nothing else. -/
theorem C7_save_error_preserves_state (s : HexEditor) (p : String)
    (w : String → List Nat → Except IOError Unit)
    (h : s.rom_path = some p) :
    (∀ e, w p s.data = Except.error e →
        s.save_file w = (s, Except.error e)) ∧
    (w p s.data = Except.ok () →
        s.save_file w = ({ s with modified := false }, Except.ok ())) := by
  obtain ⟨rp, d, m, v, cp⟩ := s
  simp only [HexEditor.rom_path] at h
  subst h
  constructor
  · intro e he
    simp only [HexEditor.data] at he
    simp [HexEditor.save_file, he]
  · intro hok
    simp only [HexEditor.data] at hok
    simp [HexEditor.save_file, hok]

/-- Witness for C7: a concrete modified editor with a path; an erroring
write leaves it intact, a succeeding one only clears `modified`. -/
theorem C7_witness :
    (HexEditor.mk (some "rom.gbc") [1, 2, 3] true 4 (5, 6)).rom_path =
        some "rom.gbc" ∧
    (HexEditor.mk (some "rom.gbc") [1, 2, 3] true 4 (5, 6)).save_file
        (fun _ _ => Except.error IOError.ioError) =
      (HexEditor.mk (some "rom.gbc") [1, 2, 3] true 4 (5, 6),
        Except.error IOError.ioError) ∧
    (HexEditor.mk (some "rom.gbc") [1, 2, 3] true 4 (5, 6)).save_file
        (fun _ _ => Except.ok ()) =
      (HexEditor.mk (some "rom.gbc") [1, 2, 3] false 4 (5, 6),
        Except.ok ()) := by
  refine ⟨rfl, ?_, ?_⟩
  · exact (C7_save_error_preserves_state
      (HexEditor.mk (some "rom.gbc") [1, 2, 3] true 4 (5, 6)) "rom.gbc"
      (fun _ _ => Except.error IOError.ioError) rfl).1 IOError.ioError rfl
  · exact (C7_save_error_preserves_state
      (HexEditor.mk (some "rom.gbc") [1, 2, 3] true 4 (5, 6)) "rom.gbc"
      (fun _ _ => Except.ok ()) rfl).2 rfl

/-- A backward scroll (any negative delta) subtracts one row width,
saturating at 0. -/
theorem scroll_neg_eq (s : HexEditor) (d : Int) (hd : d < 0) :
    s.scroll d = { s with view_offset := s.view_offset - 16 } := by
  unfold HexEditor.scroll
  rw [if_pos hd]
  rfl

/-- A forward scroll (any positive delta) adds one row width, clamped at
`maxViewOffsetCode`. -/
theorem scroll_pos_eq (s : HexEditor) (d : Int) (hd : 0 < d) :
    s.scroll d =
      { s with
        view_offset :=
          (min (s.view_offset + 16) (maxViewOffsetCode s.data.length)) } := by
  unfold HexEditor.scroll
  rw [if_neg (by omega), if_pos hd]
  rfl

/-- Enough forward scrolls drive the view offset up to the code's clamp
bound (and scrolling never changes the buffer). -/
theorem scrollFwdIter_reaches (k : Nat) :
    ∀ s : HexEditor, s.view_offset ≤ maxViewOffsetCode s.data.length →
      maxViewOffsetCode s.data.length ≤ s.view_offset + 16 * k →
      (scrollFwdIter k s).view_offset = maxViewOffsetCode s.data.length ∧
      (scrollFwdIter k s).data = s.data := by
  induction k with
  | zero =>
      intro s h1 h2
      simp only [scrollFwdIter]
      exact ⟨by omega, by trivial⟩
  | succ k ih =>
      intro s h1 h2
      simp only [scrollFwdIter]
      have hs : (s.scroll 10).view_offset =
          min (s.view_offset + 16) (maxViewOffsetCode s.data.length) ∧
          (s.scroll 10).data = s.data := by
        rw [scroll_pos_eq s 10 (by decide)]
        exact ⟨rfl, rfl⟩
      have h1' : (s.scroll 10).view_offset ≤
          maxViewOffsetCode (s.scroll 10).data.length := by
        rw [hs.1, hs.2]
        omega
      have h2' : maxViewOffsetCode (s.scroll 10).data.length ≤
          (s.scroll 10).view_offset + 16 * k := by
        rw [hs.1, hs.2]
        omega
      have hk := ih (s.scroll 10) h1' h2'
      rw [hs.2] at hk
      exact hk

/-- Enough backward scrolls drive the view offset down to 0. -/
theorem scrollBackIter_reaches (k : Nat) :
    ∀ s : HexEditor, s.view_offset ≤ 16 * k →
      (scrollBackIter k s).view_offset = 0 ∧
      (scrollBackIter k s).data = s.data := by
  induction k with
  | zero =>
      intro s h
      simp only [scrollBackIter]
      exact ⟨by omega, by trivial⟩
  | succ k ih =>
      intro s h
      simp only [scrollBackIter]
      have hs : (s.scroll (-10)).view_offset = s.view_offset - 16 ∧
          (s.scroll (-10)).data = s.data := by
        rw [scroll_neg_eq s (-10) (by decide)]
        exact ⟨rfl, rfl⟩
      have hk := ih (s.scroll (-10)) (by rw [hs.1]; omega)
      rw [hs.2] at hk
      exact hk

set_option maxRecDepth 8192 in
/-- Counterexample to claim C5: on a 641-byte buffer the claim's
`maxViewOffset = max(0, 641 - visibleRows*16) = 161`, but a forward
scroll from view offset 161 is not a no-op — the code clamps with
`HEIGHT`, giving `min(161+16, 641-640) = 1`. -/
theorem C5_counterexample :
    (HexEditor.mk none (List.replicate 641 0) false 161 (0, 0)).view_offset =
      (HexEditor.mk none (List.replicate 641 0) false 161
          (0, 0)).data.length - visibleRows * BYTES_PER_ROW ∧
    ((HexEditor.mk none (List.replicate 641 0) false 161 (0, 0)).scroll
        10).view_offset = 1 ∧
    (1 : Nat) ≠ 161 := by
  refine ⟨by decide, by decide, by decide⟩

/-- Claim C5 as amended: with `maxViewOffsetCode = len.saturating_sub
(HEIGHT*16)` (the bound the code uses, `HEIGHT` not `visibleRows`), from
any in-range view offset repeated forward scrolls converge to it and a
forward scroll there is a no-op; repeated backward scrolls converge to 0
and a backward scroll at 0 is a no-op; a single scroll moves by exactly
one row width unless clamped. -/
theorem C5_scroll_convergence (s : HexEditor)
    (h : s.view_offset ≤ maxViewOffsetCode s.data.length) :
    (∃ n, (scrollFwdIter n s).view_offset =
        maxViewOffsetCode s.data.length) ∧
    (s.view_offset = maxViewOffsetCode s.data.length → s.scroll 10 = s) ∧
    (∃ m, (scrollBackIter m s).view_offset = 0) ∧
    (s.view_offset = 0 → s.scroll (-10) = s) ∧
    (s.view_offset + BYTES_PER_ROW ≤ maxViewOffsetCode s.data.length →
      (s.scroll 10).view_offset = s.view_offset + BYTES_PER_ROW) ∧
    (BYTES_PER_ROW ≤ s.view_offset →
      (s.scroll (-10)).view_offset = s.view_offset - BYTES_PER_ROW) := by
  refine ⟨?_, ?_, ?_, ?_, ?_, ?_⟩
  · exact ⟨maxViewOffsetCode s.data.length,
      (scrollFwdIter_reaches (maxViewOffsetCode s.data.length) s h
        (by omega)).1⟩
  · intro hm
    rw [scroll_pos_eq s 10 (by decide)]
    have hmin : min (s.view_offset + 16) (maxViewOffsetCode s.data.length) =
        s.view_offset := by omega
    rw [hmin]
  · exact ⟨s.view_offset,
      (scrollBackIter_reaches s.view_offset s (by omega)).1⟩
  · intro h0
    rw [scroll_neg_eq s (-10) (by decide)]
    have hz : s.view_offset - 16 = s.view_offset := by omega
    rw [hz]
  · intro hle
    rw [scroll_pos_eq s 10 (by decide)]
    show min (s.view_offset + 16) (maxViewOffsetCode s.data.length) =
      s.view_offset + BYTES_PER_ROW
    simp only [BYTES_PER_ROW] at hle ⊢
    omega
  · intro hge
    rw [scroll_neg_eq s (-10) (by decide)]
    show s.view_offset - 16 = s.view_offset - BYTES_PER_ROW
    simp only [BYTES_PER_ROW]

set_option maxRecDepth 8192 in
/-- Witness for C5 (amended): on a 656-byte buffer (`maxViewOffsetCode =
16`) at view offset 0, one forward scroll moves by exactly one row. -/
theorem C5_witness :
    (HexEditor.mk none (List.replicate 656 0) false 0 (0, 0)).view_offset ≤
      maxViewOffsetCode
        (HexEditor.mk none (List.replicate 656 0) false 0
          (0, 0)).data.length ∧
    ((HexEditor.mk none (List.replicate 656 0) false 0 (0, 0)).scroll
        10).view_offset =
      (HexEditor.mk none (List.replicate 656 0) false 0 (0, 0)).view_offset +
        BYTES_PER_ROW := by
  refine ⟨by decide, ?_⟩
  exact (C5_scroll_convergence
    (HexEditor.mk none (List.replicate 656 0) false 0 (0, 0))
    (by decide)).2.2.2.2.1 (by decide)

/-- One operation preserves the code's viewport invariant. -/
theorem viewInv_applyOp (s : HexEditor) (op : EditorOp) (h : viewInv s) :
    viewInv (applyOp s op) := by
  obtain ⟨hb, hm⟩ := h
  cases op with
  | openf p r =>
      cases r with
      | error e => exact ⟨hb, hm⟩
      | ok d => exact ⟨Nat.zero_le _, Or.inl rfl⟩
  | scrollBy d =>
      show viewInv (s.scroll d)
      rcases lt_trichotomy d 0 with hd | rfl | hd
      · rw [scroll_neg_eq s d hd]
        refine ⟨?_, ?_⟩
        · show s.view_offset - 16 ≤ maxViewOffsetCode s.data.length
          omega
        · show (s.view_offset - 16) % BYTES_PER_ROW = 0 ∨
            (s.view_offset - 16) % BYTES_PER_ROW =
              maxViewOffsetCode s.data.length % BYTES_PER_ROW
          simp only [BYTES_PER_ROW] at hm ⊢
          omega
      · have hz : s.scroll 0 = s := by
          unfold HexEditor.scroll
          rw [if_neg (by omega), if_neg (by omega)]
        rw [hz]
        exact ⟨hb, hm⟩
      · rw [scroll_pos_eq s d hd]
        refine ⟨?_, ?_⟩
        · show min (s.view_offset + 16) (maxViewOffsetCode s.data.length) ≤
            maxViewOffsetCode s.data.length
          omega
        · show min (s.view_offset + 16)
              (maxViewOffsetCode s.data.length) % BYTES_PER_ROW = 0 ∨
            min (s.view_offset + 16)
              (maxViewOffsetCode s.data.length) % BYTES_PER_ROW =
              maxViewOffsetCode s.data.length % BYTES_PER_ROW
          simp only [BYTES_PER_ROW] at hm ⊢
          omega

/-- Any sequence of operations preserves the viewport invariant. -/
theorem viewInv_applyOps (ops : List EditorOp) :
    ∀ s : HexEditor, viewInv s → viewInv (applyOps s ops) := by
  induction ops with
  | nil => intro s h; exact h
  | cons op ops ih =>
      intro s h
      exact ih (applyOp s op) (viewInv_applyOp s op h)

set_option maxRecDepth 8192 in
/-- Counterexample to claim C6: opening a 641-byte file and scrolling
forward once leaves the view offset at 1, which is not a multiple of the
row width 16. -/
theorem C6_counterexample :
    (applyOps HexEditor.new
        [EditorOp.openf "f" (Except.ok (List.replicate 641 0)),
         EditorOp.scrollBy 10]).view_offset = 1 ∧
    ¬(applyOps HexEditor.new
        [EditorOp.openf "f" (Except.ok (List.replicate 641 0)),
         EditorOp.scrollBy 10]).view_offset % BYTES_PER_ROW = 0 := by
  refine ⟨by decide, by decide⟩

/-- Claim C6 as amended: after any sequence of opens and scrolls from the
initial state, the view offset is bounded by the code's clamp
`len - HEIGHT*16` (hence also by the spec's `len - visibleRows*16`), and
is a multiple of 16 except that clamping may leave it congruent to the
clamp bound modulo 16. -/
theorem C6_viewport_invariant (ops : List EditorOp) :
    (applyOps HexEditor.new ops).view_offset ≤
      maxViewOffsetCode (applyOps HexEditor.new ops).data.length ∧
    (applyOps HexEditor.new ops).view_offset ≤
      (applyOps HexEditor.new ops).data.length -
        visibleRows * BYTES_PER_ROW ∧
    ((applyOps HexEditor.new ops).view_offset % BYTES_PER_ROW = 0 ∨
      (applyOps HexEditor.new ops).view_offset % BYTES_PER_ROW =
        maxViewOffsetCode (applyOps HexEditor.new ops).data.length %
          BYTES_PER_ROW) := by
  obtain ⟨hb, hm⟩ :=
    viewInv_applyOps ops HexEditor.new ⟨Nat.zero_le _, Or.inl rfl⟩
  refine ⟨hb, ?_, hm⟩
  simp only [maxViewOffsetCode, visibleRows, HEIGHT, BYTES_PER_ROW] at hb ⊢
  omega

end PokeHex
